import Mathlib

/-!
Verification of the gitcraft sync engine against its specification.

The definitions below are a shallow embedding of the JavaScript source:

* `JVal`, `truthy`, `jsGet`, `jsIndex` model untyped JavaScript values and
  the optional-chaining reads the source performs on JSON-RPC replies.
* `extractCollectionId` embeds
  `CraftAdvancedIntegration.extractCollectionId` (craft-advanced.js).
* `repairJSON` embeds `LLMIntegration.repairJSON` (llm.js), together with a
  JSON validity checker modelling `JSON.parse`.
* `listPullRequests`, `checkForUpdates` embed the GitHub client
  (github.js) and `DocumentationUpdater.checkForUpdates` (updater.js).
* `runSyncCycleStep` embeds the per-connection body of
  `ContinuousSyncService.runSyncCycle` (continuousSync.js).
* `processUpdateWithCollections` embeds the PR path of
  `DocumentationUpdater.processUpdateWithCollections` (updater.js).
* `postAnalyze` embeds the `POST /sync/analyze` handler (routes/sync.js).

Network calls are modelled by passing the remote reply (or thrown error) as
an explicit input; every emitted provider call, workspace read, workspace
mutation and store mutation is recorded so that theorems can speak about
"no provider calls" or "exactly one inserted item".
-/

set_option autoImplicit false

namespace GitCraft


/-! ### JavaScript-like values -/

/-- Untyped JavaScript values, as far as the code under study inspects them. -/
inductive JVal where
  | jundefined
  | jnull
  | jbool (b : Bool)
  | jnum (n : Int)
  | jstr (s : String)
  | jarr (elems : List JVal)
  | jobj (fields : List (String × JVal))

/-- JavaScript truthiness (`if (x)`), for the value shapes of `JVal`. -/
def truthy : JVal → Bool
  | .jundefined => false
  | .jnull => false
  | .jbool b => b
  | .jnum n => n != 0
  | .jstr s => s != ""
  | .jarr _ => true
  | .jobj _ => true

/-- Optional-chained property read `v?.key`: `undefined` on non-objects and
missing keys. -/
def jsGet : JVal → String → JVal
  | .jobj fields, key =>
    match fields.lookup key with
    | some v => v
    | none => .jundefined
  | _, _ => .jundefined

/-- Optional-chained index read `v?.[i]`: array element, object property with
the numeric key's string, one-character string for string values, else
`undefined`. -/
def jsIndex : JVal → Nat → JVal
  | .jarr elems, i => elems.getD i .jundefined
  | .jobj fields, i =>
    match fields.lookup (toString i) with
    | some v => v
    | none => .jundefined
  | .jstr s, i =>
    match s.toList.get? i with
    | some c => .jstr (String.singleton c)
    | none => .jundefined
  | _, _ => .jundefined

/-- `Array.isArray(v)`. -/
def isArr : JVal → Bool
  | .jarr _ => true
  | _ => false

/-- `typeof v === 'string'`. -/
def isStr : JVal → Bool
  | .jstr _ => true
  | _ => false

/-! ### Collection-id extraction (craft-advanced.js, `extractCollectionId`) -/

/-- `CraftAdvancedIntegration.extractCollectionId`: tries, in order,
`result?.collectionBlockId`, `result?.collections?.[0]?.id`, `result?.id`,
`Array.isArray(result) && result[0]?.id`, `result?.result?.id`,
`result?.collection?.id`, then a bare string result; otherwise `null`. -/
def extractCollectionId (result : JVal) : JVal :=
  if truthy (jsGet result "collectionBlockId") then jsGet result "collectionBlockId"
  else if truthy (jsGet (jsIndex (jsGet result "collections") 0) "id") then
    jsGet (jsIndex (jsGet result "collections") 0) "id"
  else if truthy (jsGet result "id") then jsGet result "id"
  else if isArr result && truthy (jsGet (jsIndex result 0) "id") then
    jsGet (jsIndex result 0) "id"
  else if truthy (jsGet (jsGet result "result") "id") then jsGet (jsGet result "result") "id"
  else if truthy (jsGet (jsGet result "collection") "id") then
    jsGet (jsGet result "collection") "id"
  else if isStr result then result
  else .jnull

/-- The extraction policy in the words of the specification (§4.2): try, in
this order, `collectionBlockId`, `collections[0].id`, `id`, `result.id`,
`collection.id`; if the result is a bare string, use it. Stated separately
so it can be compared with `extractCollectionId` as embedded from the
source. -/
def specExtractCollectionId (result : JVal) : JVal :=
  if truthy (jsGet result "collectionBlockId") then jsGet result "collectionBlockId"
  else if truthy (jsGet (jsIndex (jsGet result "collections") 0) "id") then
    jsGet (jsIndex (jsGet result "collections") 0) "id"
  else if truthy (jsGet result "id") then jsGet result "id"
  else if truthy (jsGet (jsGet result "result") "id") then jsGet (jsGet result "result") "id"
  else if truthy (jsGet (jsGet result "collection") "id") then
    jsGet (jsGet result "collection") "id"
  else if isStr result then result
  else .jnull

/-- `CraftAdvancedIntegration.createReleaseNotesCollection`, restricted to
what it does with the `collections_create` reply (its input here): extract
the collection id and throw when no id could be extracted
(`if (!collectionId) throw new Error(...)`). -/
def createReleaseNotesCollection (collectionsCreateResponse : JVal) : Except String JVal :=
  let collectionId := extractCollectionId collectionsCreateResponse
  if truthy collectionId then Except.ok collectionId
  else Except.error "Failed to create release_notes collection - could not extract ID from response"

/-! ### Oracle JSON repair (llm.js, `repairJSON`) -/

/-- JavaScript regex whitespace class `\s` (the code points relevant here). -/
def jsWhite (c : Char) : Bool :=
  c = ' ' || c = '\t' || c = '\n' || c = '\r' || c = '\x0b' || c = '\x0c' ||
  c = '\xa0' || c = '\u1680' || ('\u2000' ≤ c && c ≤ '\u200a') || c = '\u2028' ||
  c = '\u2029' || c = '\u202f' || c = '\u205f' || c = '\u3000' || c = '\ufeff'

/-- Pass 1 of `repairJSON`: the global replace
`jsonStr.replace(/,(\s*[}\]])/g, '$1')`. A comma followed by a whitespace run
and a closing bracket or brace is dropped; scanning resumes after the match. -/
def rmTrailingCommasF : Nat → List Char → List Char
  | _, [] => []
  | 0, s => s
  | fuel + 1, c :: rest =>
    if c = ',' then
      match rest.dropWhile jsWhite with
      | b :: tail =>
        if b = '\x7d' || b = ']' then
          rest.takeWhile jsWhite ++ b :: rmTrailingCommasF fuel tail
        else c :: rmTrailingCommasF fuel rest
      | [] => c :: rmTrailingCommasF fuel rest
    else c :: rmTrailingCommasF fuel rest

/-- Pass 1 with enough fuel for the whole input (the fuel only serves to make
the scan structurally recursive; every recursive call shortens the list, so
`s.length` never runs out). -/
def rmTrailingCommas (s : List Char) : List Char := rmTrailingCommasF s.length s

/-- Pass 2 of `repairJSON`: the global replace
`jsonStr.replace(/([^\\])\\n/g, '$1\\\\n')`: a non-backslash character
followed by the two-character sequence backslash-`n` gets the backslash
doubled; scanning resumes after the match. -/
def escNewlinesF : Nat → List Char → List Char
  | _, [] => []
  | 0, s => s
  | fuel + 1, c :: rest =>
    match rest with
    | '\\' :: 'n' :: rest2 =>
      if c = '\\' then c :: escNewlinesF fuel rest
      else c :: '\\' :: '\\' :: 'n' :: escNewlinesF fuel rest2
    | _ => c :: escNewlinesF fuel rest

/-- Pass 2 with enough fuel for the whole input (fuel only makes the scan
structurally recursive; it never runs out when it starts at the length). -/
def escNewlines (s : List Char) : List Char := escNewlinesF s.length s

/-- The first-match search of pass 3's per-iteration replace
`jsonStr.replace(/,\s*"[^"]*$/, '')`: find the leftmost comma that is
followed (after a whitespace run) by a double quote with no further quote up
to the end of the string, and return the prefix before that comma. -/
def cqSplit : List Char → Option (List Char)
  | [] => none
  | c :: rest =>
    if c = ',' then
      match rest.dropWhile jsWhite with
      | '"' :: tail =>
        if tail.contains '"' then (cqSplit rest).map (c :: ·)
        else some []
      | _ => (cqSplit rest).map (c :: ·)
    else (cqSplit rest).map (c :: ·)

/-- One iteration of pass 3's loop: truncate at the matched comma (if the
regex matches) and append `]`. -/
def closeBracketsOnce (s : List Char) : List Char :=
  (match cqSplit s with
   | some pre => pre
   | none => s) ++ [']']

/-- Pass 3 of `repairJSON`: if there are more `[` than `]`, run
`closeBracketsOnce` once per missing bracket (the deficit is computed once,
before the loop). -/
def closeBrackets (s : List Char) : List Char :=
  let openB := s.count '['
  let closeB := s.count ']'
  if openB > closeB then closeBracketsOnce^[openB - closeB] s else s

/-- Pass 4 of `repairJSON`: if there are more `{` than `}`, append one `}`
per missing brace. -/
def closeBraces (s : List Char) : List Char :=
  let openB := s.count '\x7b'
  let closeB := s.count '\x7d'
  if openB > closeB then s ++ List.replicate (openB - closeB) '\x7d' else s

/-- Pass 5 of `repairJSON`: drop any text after the last `}` (if one
exists). -/
def truncAfterLastBrace (s : List Char) : List Char :=
  let r := s.reverse.dropWhile (fun c => c != '\x7d')
  if r.isEmpty then s else r.reverse

/-- `LLMIntegration.repairJSON` on character lists: the five passes in
source order. -/
def repairChars (s : List Char) : List Char :=
  truncAfterLastBrace (closeBraces (closeBrackets (escNewlines (rmTrailingCommas s))))

/-- `LLMIntegration.repairJSON` (llm.js). -/
def repairJSON (s : String) : String :=
  String.mk (repairChars s.toList)

/-! ### JSON validity (model of `JSON.parse` succeeding) -/

/-- JSON-grammar whitespace. -/
def jsonWS (c : Char) : Bool :=
  c = ' ' || c = '\t' || c = '\n' || c = '\r'

/-- Skip JSON whitespace. -/
def skipWS (s : List Char) : List Char := s.dropWhile jsonWS

/-- ASCII digit. -/
def isDigit (c : Char) : Bool := '0' ≤ c && c ≤ '9'

/-- ASCII hex digit. -/
def isHex (c : Char) : Bool :=
  isDigit c || ('a' ≤ c && c ≤ 'f') || ('A' ≤ c && c ≤ 'F')

/-- Parse the remainder of a JSON string literal (after the opening quote);
returns the input after the closing quote. -/
def jsonStringRest : List Char → Option (List Char)
  | [] => none
  | c0 :: rest =>
    if c0 = '"' then some rest
    else if c0 = '\\' then
      match rest with
      | [] => none
      | e :: rest1 =>
        if e = '"' || e = '\\' || e = '/' || e = 'b' || e = 'f' || e = 'n' || e = 'r' || e = 't' then
          jsonStringRest rest1
        else if e = 'u' then
          match rest1 with
          | a :: b :: c :: d :: rest2 =>
            if isHex a && isHex b && isHex c && isHex d then jsonStringRest rest2 else none
          | _ => none
        else none
    else if c0.toNat < 32 then none else jsonStringRest rest

/-- One or more digits, then skip the rest of the digit run. -/
def chompDigits1 : List Char → Option (List Char)
  | c :: r => if isDigit c then some (r.dropWhile isDigit) else none
  | [] => none

/-- Optional JSON fraction part. -/
def chompFrac : List Char → Option (List Char)
  | '.' :: r => chompDigits1 r
  | s => some s

/-- Optional JSON exponent part. -/
def chompExp : List Char → Option (List Char)
  | c :: r =>
    if c = 'e' || c = 'E' then
      match r with
      | s :: r2 => if s = '+' || s = '-' then chompDigits1 r2 else chompDigits1 (s :: r2)
      | [] => none
    else some (c :: r)
  | [] => some []

/-- Parse a JSON number; returns the remainder. -/
def jsonNumber (s : List Char) : Option (List Char) :=
  let s1 := match s with
    | '-' :: r => r
    | r => r
  match s1 with
  | '0' :: r => (chompFrac r).bind chompExp
  | c :: r => if isDigit c then (chompFrac (r.dropWhile isDigit)).bind chompExp else none
  | [] => none

mutual

/-- Parse one JSON value (fuelled); returns the remainder. -/
def jsonValue : Nat → List Char → Option (List Char)
  | 0, _ => none
  | fuel + 1, s =>
    match skipWS s with
    | 'n' :: 'u' :: 'l' :: 'l' :: r => some r
    | 't' :: 'r' :: 'u' :: 'e' :: r => some r
    | 'f' :: 'a' :: 'l' :: 's' :: 'e' :: r => some r
    | '"' :: r => jsonStringRest r
    | '\x7b' :: r => jsonMembers fuel (skipWS r)
    | '[' :: r => jsonElements fuel (skipWS r)
    | s1 => jsonNumber s1

/-- Parse array elements after `[` (input whitespace-skipped). -/
def jsonElements : Nat → List Char → Option (List Char)
  | 0, _ => none
  | fuel + 1, s =>
    match s with
    | ']' :: r => some r
    | _ =>
      match jsonValue fuel s with
      | none => none
      | some r => jsonElementsTail fuel (skipWS r)

/-- Parse `, value` repetitions and the closing `]`. -/
def jsonElementsTail : Nat → List Char → Option (List Char)
  | 0, _ => none
  | fuel + 1, s =>
    match s with
    | ']' :: r => some r
    | ',' :: r =>
      match jsonValue fuel r with
      | none => none
      | some r2 => jsonElementsTail fuel (skipWS r2)
    | _ => none

/-- Parse object members after `{` (input whitespace-skipped). -/
def jsonMembers : Nat → List Char → Option (List Char)
  | 0, _ => none
  | fuel + 1, s =>
    match s with
    | '\x7d' :: r => some r
    | '"' :: r =>
      match jsonStringRest r with
      | none => none
      | some r2 =>
        match skipWS r2 with
        | ':' :: r3 =>
          match jsonValue fuel r3 with
          | none => none
          | some r4 => jsonMembersTail fuel (skipWS r4)
        | _ => none
    | _ => none

/-- Parse `, "key": value` repetitions and the closing `}`. -/
def jsonMembersTail : Nat → List Char → Option (List Char)
  | 0, _ => none
  | fuel + 1, s =>
    match s with
    | '\x7d' :: r => some r
    | ',' :: r =>
      match skipWS r with
      | '"' :: r2 =>
        match jsonStringRest r2 with
        | none => none
        | some r3 =>
          match skipWS r3 with
          | ':' :: r4 =>
            match jsonValue fuel r4 with
            | none => none
            | some r5 => jsonMembersTail fuel (skipWS r5)
          | _ => none
      | _ => none
    | _ => none

end

/-- `JSON.parse(s)` succeeds: a full JSON value with only trailing
whitespace. -/
def jsonParses (s : String) : Bool :=
  match jsonValue (2 * s.length + 4) s.toList with
  | some r => (skipWS r).isEmpty
  | none => false

/-! ### JavaScript optional values -/

/-- A JavaScript field that can be `undefined`, `null`, or a value. The code
under study distinguishes `undefined` from `null` (e.g.
`lastPR === undefined && lastSync === undefined`). -/
inductive JSOpt (α : Type) where
  | undefined
  | null
  | val (a : α)
  deriving DecidableEq, Repr

/-- `x || 0` for a numeric field: `undefined`, `null` and `0` all fall back
to `0`. -/
def jsOrZero : JSOpt Nat → Nat
  | .val n => n
  | _ => 0

/-- `h || old` where `h` is a number: `0` is falsy, so it falls back to
`old`. -/
def jsOrElse (h : Nat) (old : JSOpt Nat) : JSOpt Nat :=
  if h = 0 then old else .val h

/-- Truthiness of a string-valued field (`undefined`, `null` and `""` are
falsy). -/
def jsStrTruthy : JSOpt String → Bool
  | .val s => s != ""
  | _ => false

/-- Truthiness of a date-valued field (a `Date` object is always truthy;
`undefined` and `null` are falsy). -/
def jsDateTruthy : JSOpt Nat → Bool
  | .val _ => true
  | _ => false

/-! ### Version-control client (github.js) -/

/-- One element of the provider's closed-pull-request page
(`octokit.pulls.list` reply, ordered as delivered: the request asks for
`sort: 'updated', direction: 'desc'`, so the page order is by last-update
time, most recent first — not by PR number). -/
structure ProviderPR where
  number : Nat
  mergedAt : Option Nat
  title : String
  deriving DecidableEq, Repr

/-- The summary shape `GitHubIntegration.listPullRequests` maps each PR
to. -/
structure PRSummary where
  number : Nat
  title : String
  deriving DecidableEq, Repr

/-- `GitHubIntegration.listPullRequests(owner, repo, 'closed', since)`:
keep merged PRs (optionally merged after `since`), preserving the
provider's page order. -/
def listPullRequests (page : List ProviderPR) (since : Option Nat) : List PRSummary :=
  let prs : List ProviderPR := page.filter (fun pr => pr.mergedAt.isSome)
  let prs : List ProviderPR :=
    match since with
    | some d => prs.filter (fun pr =>
        match pr.mergedAt with
        | some m => decide (d < m)
        | none => false)
    | none => prs
  prs.map (fun pr => { number := pr.number, title := pr.title })

/-- A commit as the sweep reads it. -/
structure Commit where
  sha : String
  message : String
  author : String
  deriving DecidableEq, Repr

/-- The outcome of the JavaScript call
`this.github.listRecentCommits(owner, repo, branch, lastSync)` in
`checkForUpdates`. `GitHubIntegration` (github.js) defines
`listPullRequests`, `getCommit`, `getPRWithDiscussion`, … but **no**
`listRecentCommits` method, and no other definition of it exists in the
repository, so the call always throws a `TypeError`. -/
def listRecentCommitsCall : Except String (List Commit) :=
  Except.error "TypeError: this.github.listRecentCommits is not a function"

/-! ### Commit sweep (updater.js, checkForUpdates lines 822-887) -/

/-- Oracle verdict for a commit batch (`llm.analyzeCommitSignificance`). -/
structure CommitSig where
  isSignificant : Bool
  impactLevel : String
  summary : String
  suggestedTasks : List String
  deriving DecidableEq, Repr

/-- What a commit sweep did: oracle invocations, batches handed to the
commit-path Change Processor (`processCommitWithCollections` /
`processCommitUpdate`), and the counters returned. -/
structure CommitSweepOut where
  llmCalls : Nat
  processorBatches : List (List Commit)
  commitCount : Nat
  processedCommits : List String
  deriving DecidableEq, Repr

/-- A sweep that did nothing. -/
def zeroSweep : CommitSweepOut :=
  { llmCalls := 0, processorBatches := [], commitCount := 0, processedCommits := [] }

/-- The commit sweep of `checkForUpdates`, parameterized by the outcome of
the `this.github.listRecentCommits(...)` call (`listResult`), by whether the
follow-up `getCommit` call throws, and by the oracle's significance verdict.
The whole sweep is wrapped in `try { ... } catch (err) { continue }`: a
thrown listing error skips everything. Otherwise commits whose message
starts with `"Merge "` are dropped, processing happens only when `lastSync`
is truthy, and the 10 newest direct commits are analysed and (when
significant) processed; `commitCount` is the number of all direct
commits. -/
def commitSweep (listResult : Except String (List Commit)) (getCommitThrows : Bool)
    (lastSync : JSOpt Nat) (sig : List Commit → CommitSig) : CommitSweepOut :=
  match listResult with
  | .error _ => zeroSweep
  | .ok commits =>
    -- `!c.message.startsWith('Merge ')`, via the character list
    let directCommits := commits.filter (fun c => !(("Merge ".toList).isPrefixOf c.message.toList))
    if 0 < directCommits.length ∧ jsDateTruthy lastSync then
      if getCommitThrows then zeroSweep
      else
        let s := sig (directCommits.take 10)
        if s.isSignificant then
          { llmCalls := 1
            processorBatches := [directCommits.take 10]
            commitCount := directCommits.length
            processedCommits := (directCommits.take 10).map (fun c => c.sha.take 7) }
        else { zeroSweep with llmCalls := 1 }
    else zeroSweep

/-! ### checkForUpdates (updater.js) -/

/-- The per-connection collection ids (`syncState.collectionIds`). -/
structure CollIds where
  releaseNotes : JSOpt String
  adrs : JSOpt String
  engineeringTasks : JSOpt String
  docHistory : JSOpt String
  deriving DecidableEq, Repr

/-- The `syncState` object handed to `checkForUpdates` (built in
continuousSync.js from the repository store, `{}` when the store has no
record). -/
structure SyncState where
  lastSyncedAt : JSOpt Nat
  lastProcessedPR : JSOpt Nat
  documentId : JSOpt String
  collectionIds : JSOpt CollIds
  deriving DecidableEq, Repr

/-- The empty `syncState = {}` (all fields undefined). -/
def emptySyncState : SyncState :=
  { lastSyncedAt := .undefined, lastProcessedPR := .undefined,
    documentId := .undefined, collectionIds := .undefined }

/-- External outcomes consumed by one `checkForUpdates` run. -/
structure UpdaterEnv where
  /-- Reply (or thrown error) of `octokit.pulls.list`. -/
  closedPRPage : Except String (List ProviderPR)
  /-- Whether processing of PR `n` (`processUpdateWithCollections` or the
  legacy `processUpdate`) completes without throwing. -/
  prProcessOk : Nat → Bool
  /-- `lastProcessedPR` of the legacy `_agent_state` workspace document
  (`getDocumentationState`), consulted only when both cursor fields are
  `undefined`. -/
  craftStatePR : JSOpt Nat
  /-- `lastSync` of the legacy `_agent_state` workspace document. -/
  craftStateSync : JSOpt Nat
  /-- Whether `getCommit` on the newest direct commit throws. -/
  getCommitThrows : Bool
  /-- Oracle significance for a commit batch. -/
  commitSig : List Commit → CommitSig

/-- The `{processed, prs, commits, prCount, commitCount, highestPR}` record
returned by `checkForUpdates`. -/
structure UpdateResult where
  processed : Nat
  prs : List Nat
  commits : List String
  prCount : Nat
  commitCount : Nat
  highestPR : Nat
  deriving DecidableEq, Repr

/-- A full `checkForUpdates` run: the returned result plus the externally
visible behaviour the theorems speak about. -/
structure CheckOut where
  /-- PR numbers iterated by the sweep, in iteration order (failures
  included). -/
  attemptedPRs : List Nat
  /-- Whether the legacy workspace state document was consulted. -/
  legacyStateRead : Bool
  /-- What the commit sweep did. -/
  commitSweepOut : CommitSweepOut
  result : UpdateResult
  deriving Repr

/-- The cursor lower bound `checkForUpdates` filters against:
`lastPR = (legacy ? state.lastProcessedPR || 0 : syncState.lastProcessedPR) || 0`. -/
def lastPRFor (env : UpdaterEnv) (st : SyncState) : Nat :=
  if st.lastProcessedPR = .undefined ∧ st.lastSyncedAt = .undefined then jsOrZero env.craftStatePR
  else jsOrZero st.lastProcessedPR

/-- The `lastSync` value the commit sweep sees. -/
def lastSyncFor (env : UpdaterEnv) (st : SyncState) : JSOpt Nat :=
  if st.lastProcessedPR = .undefined ∧ st.lastSyncedAt = .undefined then env.craftStateSync
  else st.lastSyncedAt

/-- `DocumentationUpdater.checkForUpdates(owner, repo, branch, syncState)`:
read the cursor (falling back to the legacy workspace state when both
fields are undefined), list closed PRs, iterate the ones newer than the
cursor (logging and continuing on per-PR failure), run the commit sweep
(whose listing call always throws, see `listRecentCommitsCall`), and return
the counters with `highestPR` = the highest successfully processed PR
number, or `lastPR` when none was processed. -/
def checkForUpdates (env : UpdaterEnv) (st : SyncState) : Except String CheckOut :=
  let lastPR := lastPRFor env st
  match env.closedPRPage with
  | .error e => .error e
  | .ok page =>
    let prs := listPullRequests page none
    let newPRs := prs.filter (fun pr => lastPR < pr.number)
    let processedPRs := ((newPRs.filter (fun pr => env.prProcessOk pr.number)).map
      (fun pr => pr.number))
    let sweep := commitSweep listRecentCommitsCall env.getCommitThrows
      (lastSyncFor env st) env.commitSig
    .ok {
      attemptedPRs := newPRs.map (fun pr => pr.number)
      legacyStateRead := st.lastProcessedPR = .undefined ∧ st.lastSyncedAt = .undefined
      commitSweepOut := sweep
      result := {
        processed := processedPRs.length + (if 0 < sweep.commitCount then 1 else 0)
        prs := processedPRs
        commits := sweep.processedCommits
        prCount := processedPRs.length
        commitCount := sweep.commitCount
        highestPR := if processedPRs.isEmpty then lastPR else processedPRs.foldl max 0 } }

/-! ### Workspace document probe (craft-advanced.js, documentExists) -/

/-- A document as `documents_list` reports it. -/
structure WsDoc where
  id : String
  title : JSOpt String
  name : JSOpt String
  deriving DecidableEq, Repr

/-- `repoName.replace('/', '-')`: JavaScript string-argument `replace`
substitutes only the first occurrence. -/
def replaceFirstSlash (s : String) : String :=
  String.mk (go s.toList)
where
  go : List Char → List Char
    | [] => []
    | '/' :: rest => '-' :: rest
    | c :: rest => c :: go rest

/-- The canonical document title probed for: `"{repoName with / → -}-docs"`. -/
def docTitleFor (repoName : String) : String :=
  replaceFirstSlash repoName ++ "-docs"

/-- `doc.title || doc.name || ''`. -/
def docDisplayTitle (d : WsDoc) : String :=
  match d.title with
  | .val s => if s ≠ "" then s else match d.name with
    | .val n => n
    | _ => ""
  | _ => match d.name with
    | .val n => if n ≠ "" then n else ""
    | _ => ""

/-- `s.toLowerCase()`, via the character list. -/
def lowerStr (s : String) : String :=
  String.mk (s.toList.map Char.toLower)

/-- `CraftAdvancedIntegration.documentExists(repoName)` over the
`documents_list` reply: case-insensitive exact match of the canonical title;
returns `(documentId, documentTitle)` when found. -/
def documentExists (docs : List WsDoc) (repoName : String) : Option (String × String) :=
  let docTitle := docTitleFor repoName
  match docs.find? (fun d => lowerStr (docDisplayTitle d) == lowerStr docTitle) with
  | some d => some (d.id, docTitle)
  | none => none

/-! ### Per-connection sync cycle (continuousSync.js, runSyncCycle) -/

/-- One entry of the `repoConfigStore` map. -/
structure RepoConfig where
  githubToken : String
  craftMcpUrl : JSOpt String
  deriving Repr

/-- The repository-store record consulted for the cursor
(`repoStore.get(repoFullName)`). -/
structure StoredRepo where
  lastSyncedAt : JSOpt Nat
  lastProcessedPR : JSOpt Nat
  documentId : JSOpt String
  collectionIds : JSOpt CollIds
  deriving Repr

/-- External outcomes consumed by one connection's cycle. -/
structure CycleEnv where
  /-- Reply (or thrown error) of the probe's `documents_list` call (an
  `initialize` failure is the same error case). -/
  documentsList : Except String (List WsDoc)
  updater : UpdaterEnv

/-- How the cycle iteration ended for one connection. -/
inductive CycleOutcome where
  | skipped
  | deleted
  | synced (res : UpdateResult)
  | failed (msg : String)
  deriving Repr

/-- Externally visible behaviour of one connection's cycle iteration. -/
structure CycleStepOut where
  outcome : CycleOutcome
  /-- Whether the workspace existence probe ran. -/
  probeRan : Bool
  /-- Version-control-provider calls made, in order. -/
  providerCalls : List String
  /-- Workspace mutations made (the probe itself only reads). -/
  workspaceMutations : List String
  /-- `repoConfigStore.delete` (and `lastSyncTimes.delete`) happened. -/
  configDeleted : Bool
  /-- `repoStore.delete` happened. -/
  storeDeleted : Bool
  /-- PR numbers the sweep iterated. -/
  attemptedPRs : List Nat
  /-- The `repoStore.updateMetadata` write, when the cycle completed:
  `(lastProcessedPR, lastSyncedAt)` with
  `lastProcessedPR = result.highestPR || syncState.lastProcessedPR` and
  `lastSyncedAt = now`. -/
  storedCursor : Option (JSOpt Nat × Nat)
  deriving Repr

/-- The two-minute per-connection minimum interval
(`lastSync && (Date.now() - lastSync) < 2 * 60 * 1000`). -/
def shouldSkip (now : Nat) (lastSyncTime : Option Nat) : Bool :=
  match lastSyncTime with
  | some t => now - t < 2 * 60 * 1000
  | none => false

/-- Outputs shared by the do-nothing exits. -/
def idleOut (outcome : CycleOutcome) (probeRan : Bool) : CycleStepOut :=
  { outcome := outcome, probeRan := probeRan, providerCalls := [],
    workspaceMutations := [], configDeleted := false, storeDeleted := false,
    attemptedPRs := [], storedCursor := none }

/-- The `syncState` object built from a store record in
`runSyncCycle`. -/
def syncStateOf (r : StoredRepo) : SyncState :=
  { lastSyncedAt := r.lastSyncedAt, lastProcessedPR := r.lastProcessedPR,
    documentId := r.documentId, collectionIds := r.collectionIds }

/-- The sweep-and-store tail of the iteration (after reconciliation):
build `syncState` from the store record, run `checkForUpdates`, then
`lastSyncTimes.set` and `repoStore.updateMetadata` (which throws when the
record is missing from the store). Failures are caught by the
per-connection `catch` and only counted. -/
def proceedSync (repoFullName : String) (now : Nat) (stored : Option StoredRepo)
    (env : CycleEnv) (probeRan : Bool) : CycleStepOut :=
  let syncState : SyncState :=
    match stored with
    | some r => syncStateOf r
    | none => emptySyncState
  match checkForUpdates env.updater syncState with
  | .error e => { idleOut (.failed e) probeRan with providerCalls := ["pulls.list"] }
  | .ok out =>
    let base : CycleStepOut :=
      { outcome := .synced out.result
        probeRan := probeRan
        providerCalls := "pulls.list" :: out.attemptedPRs.map (fun n => "PR " ++ toString n)
        workspaceMutations := out.result.prs.map (fun n => "PR mutations " ++ toString n)
        configDeleted := false
        storeDeleted := false
        attemptedPRs := out.attemptedPRs
        storedCursor := none }
    match stored with
    | none =>
      -- `updateMetadata` throws `Repository ... not found`; the per-connection
      -- catch records an error, and no cursor is written
      { base with outcome := .failed ("Repository " ++ repoFullName ++ " not found") }
    | some r =>
      { base with storedCursor := some (jsOrElse out.result.highestPR r.lastProcessedPR, now) }

/-- The per-connection body of `ContinuousSyncService.runSyncCycle`
(continuousSync.js lines 93-177): skip when synced less than two minutes
ago; when the connection has a workspace endpoint, probe `documentExists`
and, when the document is gone, delete the connection from the config store
and the repository store and stop; otherwise (also when the probe throws)
run the sweep tail. -/
def runSyncCycleStep (repoFullName : String) (config : RepoConfig) (now : Nat)
    (lastSyncTime : Option Nat) (stored : Option StoredRepo) (env : CycleEnv) :
    CycleStepOut :=
  if shouldSkip now lastSyncTime then idleOut .skipped false
  else if jsStrTruthy config.craftMcpUrl then
    match env.documentsList with
    | .error _ => proceedSync repoFullName now stored env true
    | .ok docs =>
      match documentExists docs repoFullName with
      | some _ => proceedSync repoFullName now stored env true
      | none =>
        { idleOut .deleted true with configDeleted := true, storeDeleted := true }
  else proceedSync repoFullName now stored env false

/-! ### Concrete fixtures used by witnesses and counterexamples -/

/-- An oracle verdict that marks nothing significant. -/
def insigVerdict : CommitSig :=
  { isSignificant := false, impactLevel := "patch", summary := "", suggestedTasks := [] }

/-- An updater environment with an empty provider page and no legacy state. -/
def envNoWork : UpdaterEnv :=
  { closedPRPage := .ok [], prProcessOk := fun _ => true, craftStatePR := .null,
    craftStateSync := .null, getCommitThrows := false, commitSig := fun _ => insigVerdict }

/-- What `checkForUpdates envNoWork emptySyncState` returns. -/
def outNoWork : CheckOut :=
  { attemptedPRs := [], legacyStateRead := true, commitSweepOut := zeroSweep,
    result := { processed := 0, prs := [], commits := [], prCount := 0,
                commitCount := 0, highestPR := 0 } }

/-- A merge commit as the sweep would see it. -/
def mergeCommit0 : Commit :=
  { sha := "9f8e7d6c5b4a", message := "Merge pull request #7 from octo/topic", author := "bot" }

/-- A direct commit. -/
def directCommit0 : Commit :=
  { sha := "abc1234def56", message := "fix: handle empty tree", author := "dev" }

/-- An oracle verdict marking the batch significant. -/
def sigVerdict : CommitSig :=
  { isSignificant := true, impactLevel := "minor", summary := "bug fix", suggestedTasks := [] }

/-! ### Helper lemmas about the sweep -/

/-! ### C7: processing order of the PR sweep -/

/-- A provider page in update-time order whose PR numbers are descending. -/
def pageDesc : List ProviderPR :=
  [{ number := 5, mergedAt := some 1000, title := "newer" },
   { number := 3, mergedAt := some 900, title := "older" }]

/-- Updater environment serving `pageDesc`, all processing succeeding. -/
def descUpdEnv : UpdaterEnv :=
  { closedPRPage := .ok pageDesc, prProcessOk := fun _ => true, craftStatePR := .null,
    craftStateSync := .null, getCommitThrows := false, commitSig := fun _ => insigVerdict }

/-- A connection state with a zero cursor and a known last sync. -/
def stBase : SyncState :=
  { lastSyncedAt := .val 100, lastProcessedPR := .val 0,
    documentId := .val "doc-1", collectionIds := .undefined }

/-- What `checkForUpdates descUpdEnv stBase` returns. -/
def outDesc : CheckOut :=
  { attemptedPRs := [5, 3], legacyStateRead := false, commitSweepOut := zeroSweep,
    result := { processed := 2, prs := [5, 3], commits := [], prCount := 2,
                commitCount := 0, highestPR := 5 } }

/-! ### C3: the cursor and failed PRs -/

/-- A connection with no workspace endpoint (so no probe runs). -/
def cfgNoCraft : RepoConfig := { githubToken := "gh-token", craftMcpUrl := .undefined }

/-- Provider page with merged PRs 42, 43, 44. -/
def pageS3 : List ProviderPR :=
  [{ number := 42, mergedAt := some 1000, title := "a" },
   { number := 43, mergedAt := some 1100, title := "b" },
   { number := 44, mergedAt := some 1200, title := "c" }]

/-- Environment where processing PR 43 throws and the others succeed. -/
def updEnvS3 : UpdaterEnv :=
  { closedPRPage := .ok pageS3, prProcessOk := fun n => n != 43, craftStatePR := .null,
    craftStateSync := .null, getCommitThrows := false, commitSig := fun _ => insigVerdict }

/-- The cycle environment for the failed-PR scenario. -/
def cycleEnvS3 : CycleEnv := { documentsList := .ok [], updater := updEnvS3 }

/-- The stored record with cursor 41. -/
def storedS3 : StoredRepo :=
  { lastSyncedAt := .val 500, lastProcessedPR := .val 41,
    documentId := .val "doc-1", collectionIds := .undefined }

/-- The failed-PR cycle under study. -/
def s3run : CycleStepOut :=
  runSyncCycleStep "octo/hello" cfgNoCraft 10000000 none (some storedS3) cycleEnvS3

/-! ### C2: cursor monotonicity -/

/-- Ordering on optional cursors: any defined old value must persist as a
defined value at least as large. -/
def jsOptLe (old new : JSOpt Nat) : Prop :=
  ∀ k, old = .val k → ∃ m, new = .val m ∧ k ≤ m

/-- The stored record of a connection whose cursor fields were never
written (exactly what `/sync/analyze` persists). -/
def storedLegacy : StoredRepo :=
  { lastSyncedAt := .undefined, lastProcessedPR := .undefined,
    documentId := .val "doc-1", collectionIds := .undefined }

/-- Environment where the legacy `_agent_state` workspace document reports
cursor 10 and the provider has no PRs at all. -/
def updEnvLegacy : UpdaterEnv :=
  { closedPRPage := .ok [], prProcessOk := fun _ => true, craftStatePR := .val 10,
    craftStateSync := .val 400, getCommitThrows := false,
    commitSig := fun _ => insigVerdict }

/-- The cycle environment for the legacy-state scenario. -/
def cycleEnvLegacy : CycleEnv := { documentsList := .ok [], updater := updEnvLegacy }

/-- The legacy-state cycle under study. -/
def legacyRun : CycleStepOut :=
  runSyncCycleStep "octo/hello" cfgNoCraft 10000000 none (some storedLegacy) cycleEnvLegacy

/-! ### C1: reconciliation deletes stale connections and does nothing else -/

/-- A connection with a workspace endpoint. -/
def cfgWithCraft : RepoConfig :=
  { githubToken := "gh-token", craftMcpUrl := .val "https://mcp.example/x" }

/-- A cycle environment whose workspace has no documents at all. -/
def cycleEnvAbsent : CycleEnv := { documentsList := .ok [], updater := updEnvLegacy }

/-! ### Change Processor PR path (updater.js, processUpdateWithCollections) -/

/-- The fields of the oracle's per-PR `ChangeAnalysis` that the PR path
reads (spec §3 types them as shown; the code reads them off the parsed
JSON). -/
structure ChangeAnalysis where
  changeType : String
  impactLevel : String
  publicAPIChanges : Bool
  breakingChanges : Bool
  requiresADR : Bool
  summary : String
  followUpTasks : List String
  deriving DecidableEq, Repr

/-- The workspace tool calls the PR path performs.
`mainDocumentSections` stands for one `updateMainDocumentSections` run,
which only issues `blocks_get`, `markdown_add`, `blocks_update` and
`blocks_delete` calls (craft-advanced.js) — never `collectionItems_add`. -/
inductive ToolCall where
  | collectionItemsAdd (collectionBlockId : String) (itemCount : Nat)
  | mainDocumentSections (prNumber : Nat)
  deriving DecidableEq, Repr

/-- `isMajorChange` as computed in `processUpdateWithCollections`:
`analysis.impactLevel === 'major' || analysis.breakingChanges === true ||
(analysis.changeType === 'feature' && analysis.publicAPIChanges)`. -/
def isMajorChange (a : ChangeAnalysis) : Bool :=
  a.impactLevel == "major" || a.breakingChanges
    || (a.changeType == "feature" && a.publicAPIChanges)

/-- Read a defined string field (used only under a truthiness guard). -/
def jsStrGet : JSOpt String → String
  | .val s => s
  | _ => ""

/-- `DocumentationUpdater.processUpdateWithCollections` after the PR data
and analysis are in hand (updater.js lines 87-152): the workspace tool
calls it performs, in order — a `doc_history` item when that collection id
is present; a release-notes item when that id is present and
`isMajorChange`; an ADR item when that id is present and `requiresADR`; the
follow-up tasks as one `collectionItems_add` with one item per task when
that id is present and tasks exist; and the main-document section updates
when `documentId` is set. -/
def processUpdateWithCollections (prNumber : Nat) (documentId : JSOpt String)
    (collectionIds : CollIds) (analysis : ChangeAnalysis) : List ToolCall :=
  (if jsStrTruthy collectionIds.docHistory then
    [.collectionItemsAdd (jsStrGet collectionIds.docHistory) 1] else [])
  ++ (if jsStrTruthy collectionIds.releaseNotes && isMajorChange analysis then
    [.collectionItemsAdd (jsStrGet collectionIds.releaseNotes) 1] else [])
  ++ (if jsStrTruthy collectionIds.adrs && analysis.requiresADR then
    [.collectionItemsAdd (jsStrGet collectionIds.adrs) 1] else [])
  ++ (if jsStrTruthy collectionIds.engineeringTasks
        && decide (0 < analysis.followUpTasks.length) then
    [.collectionItemsAdd (jsStrGet collectionIds.engineeringTasks)
      analysis.followUpTasks.length] else [])
  ++ (if jsStrTruthy documentId then [.mainDocumentSections prNumber] else [])

/-- How many items a call list adds to the collection with the given id. -/
def itemsAddedTo (calls : List ToolCall) (collectionBlockId : String) : Nat :=
  (calls.map (fun c =>
    match c with
    | .collectionItemsAdd cid n => if cid == collectionBlockId then n else 0
    | .mainDocumentSections _ => 0)).sum

/-- The analysis of a patch-level, non-breaking bugfix PR. -/
def patchAnalysis : ChangeAnalysis :=
  { changeType := "bugfix", impactLevel := "patch", publicAPIChanges := false,
    breakingChanges := false, requiresADR := false, summary := "fixed a bug",
    followUpTasks := [] }

/-- The four materialised collection ids. -/
def matIds : CollIds :=
  { releaseNotes := .val "col-rn", adrs := .val "col-adr",
    engineeringTasks := .val "col-task", docHistory := .val "col-dh" }

/-! ### Connection API: POST /sync/analyze (routes/sync.js) -/

/-- The fields of a stored connection the analyze gate reads. -/
structure AnalyzeStored where
  documentId : JSOpt String
  documentTitle : JSOpt String
  deriving Repr

/-- The responses the handler can produce (creation-call recording aside). -/
inductive AnalyzeResp where
  | badRequest
  | unauthorized
  | alreadyExists (documentId : String) (documentTitle : String)
  | analyzed
  deriving DecidableEq, Repr

/-- The part of the handler after the database gate: probe the workspace by
canonical title (`documents_list` based, case-insensitive exact match); when
the document exists reply `alreadyExists` (also persisting the record and
registering the repo for continuous sync — store effects, not creation
calls); when the probe throws, or finds nothing, run the materialiser, whose
creation calls (`documents_create`, `collections_create`, …) are the
`materialiserCreations` input. -/
def analyzeAfterDbGate (owner repo : String)
    (workspaceDocs : Except String (List WsDoc))
    (materialiserCreations : List String) : AnalyzeResp × List String :=
  match workspaceDocs with
  | .error _ => (.analyzed, materialiserCreations)
  | .ok docs =>
    match documentExists docs (owner ++ "/" ++ repo) with
    | some found => (.alreadyExists found.1 found.2, [])
    | none => (.analyzed, materialiserCreations)

/-- The `POST /sync/analyze` handler (routes/sync.js lines 11-161): 400 on
missing fields, 401 on an invalid session, then the idempotence gates — an
existing store record with a truthy `documentId` replies `alreadyExists`
with that id immediately; otherwise the workspace probe decides. The second
component lists the document/collection creation calls performed. -/
def postAnalyze (fieldsPresent sessionOk : Bool) (owner repo : String)
    (storedRepo : Option AnalyzeStored)
    (workspaceDocs : Except String (List WsDoc))
    (materialiserCreations : List String) : AnalyzeResp × List String :=
  if !fieldsPresent then (.badRequest, [])
  else if !sessionOk then (.unauthorized, [])
  else
    match storedRepo with
    | some r =>
      if jsStrTruthy r.documentId then
        (.alreadyExists (jsStrGet r.documentId) (jsStrGet r.documentTitle), [])
      else analyzeAfterDbGate owner repo workspaceDocs materialiserCreations
    | none => analyzeAfterDbGate owner repo workspaceDocs materialiserCreations

/-! ### Theorems -/

/-- C5: whenever one of the specification's listed response shapes matches
(under the specified priority), the code's extraction yields exactly that
value; a body carrying a `collectionBlockId` always yields it; and when
extraction yields `null` the creation operation fails hard with an error
instead of silently returning null. -/
theorem extractCollectionId_followsSpecOrder :
    (∀ (r : JVal) (v : String), jsGet r "collectionBlockId" = .jstr v → v ≠ "" →
        extractCollectionId r = .jstr v)
    ∧ (∀ r : JVal, specExtractCollectionId r ≠ .jnull →
        extractCollectionId r = specExtractCollectionId r)
    ∧ (∀ r : JVal, extractCollectionId r = .jnull →
        ∃ msg, createReleaseNotesCollection r = .error msg) := by
  refine ⟨?_, ?_, ?_⟩
  · intro r v h hv
    have ht : truthy (jsGet r "collectionBlockId") = true := by
      rw [h]; simpa [truthy] using hv
    rw [extractCollectionId, if_pos ht, h]
  · intro r h
    cases r with
    | jarr elems => exact absurd rfl h
    | jundefined => rfl
    | jnull => rfl
    | jbool b => rfl
    | jnum n => rfl
    | jstr s => rfl
    | jobj fields => rfl
  · intro r h
    refine ⟨"Failed to create release_notes collection - could not extract ID from response", ?_⟩
    rw [createReleaseNotesCollection]
    simp only [h]
    rfl

/-- Witness instantiating `extractCollectionId_followsSpecOrder` at concrete
replies. -/
theorem extractCollectionId_followsSpecOrder_witness :
    extractCollectionId (.jobj [("collectionBlockId", .jstr "col-1")]) = .jstr "col-1"
    ∧ extractCollectionId (.jobj [("id", .jstr "id-7")])
        = specExtractCollectionId (.jobj [("id", .jstr "id-7")])
    ∧ ∃ msg, createReleaseNotesCollection (.jobj []) = .error msg :=
  ⟨extractCollectionId_followsSpecOrder.1 _ "col-1" rfl (by decide),
   extractCollectionId_followsSpecOrder.2.1 _ (fun h => JVal.noConfusion h),
   extractCollectionId_followsSpecOrder.2.2 _ rfl⟩

/-- Pass 5 leaves a string unchanged when it has no `}` at all or ends in
`}`. -/
theorem truncAfterLastBrace_stable (s : List Char)
    (h : '\x7d' ∉ s ∨ s.getLast? = some '\x7d') :
    truncAfterLastBrace s = s := by
  rcases h with h | h
  · have hnil : s.reverse.dropWhile (fun c => c != '\x7d') = [] := by
      refine List.dropWhile_eq_nil_iff.mpr ?_
      intro x hx
      simp only [List.mem_reverse] at hx
      exact bne_iff_ne.mpr (fun hxe => h (hxe ▸ hx))
    simp [truncAfterLastBrace, hnil]
  · have hrev : s.reverse.head? = some '\x7d' := by
      rw [List.head?_reverse]; exact h
    rcases hr : s.reverse with _ | ⟨a, t⟩
    · rw [hr] at hrev; exact absurd hrev (by simp)
    · rw [hr] at hrev
      simp only [List.head?_cons, Option.some.injEq] at hrev
      subst hrev
      have hdrop : ('\x7d' :: t).dropWhile (fun c => c != '\x7d') = '\x7d' :: t := by
        rw [List.dropWhile_cons]
        simp
      rw [truncAfterLastBrace, hr, hdrop]
      simp [← hr]

/-- C9 (counterexample): the oracle JSON repair is not idempotent. For the
input `{"a":"b\n\nc"}` (two literal backslash-`n` sequences), the repaired
string parses as JSON, yet repairing it a second time escapes the second
backslash-`n` and produces a different string. -/
theorem repairJSON_not_idempotent :
    jsonParses (repairJSON "\x7b\"a\":\"b\\n\\nc\"\x7d") = true
    ∧ repairJSON (repairJSON "\x7b\"a\":\"b\\n\\nc\"\x7d")
        ≠ repairJSON "\x7b\"a\":\"b\\n\\nc\"\x7d" :=
  ⟨by decide, by decide⟩

/-- C9 (amended): JSON repair is idempotent for every input `x` such that
`repair(x)` parses as JSON and no repair pass finds further work in
`repair(x)`: the trailing-comma strip and the newline-escape pass leave it
unchanged, the `[` count does not exceed the `]` count, the `{` count does
not exceed the `}` count, and it contains no `}` or ends with `}`.
(Unconditional idempotence over all parsing repairs is refuted by
`repairJSON` on `{"a":"b\n\nc"}`.) -/
theorem repairJSON_idempotent_of_stable (x : String)
    (_hparse : jsonParses (repairJSON x) = true)
    (h1 : rmTrailingCommas (repairJSON x).toList = (repairJSON x).toList)
    (h2 : escNewlines (repairJSON x).toList = (repairJSON x).toList)
    (h3 : (repairJSON x).toList.count '[' ≤ (repairJSON x).toList.count ']')
    (h4 : (repairJSON x).toList.count '\x7b' ≤ (repairJSON x).toList.count '\x7d')
    (h5 : '\x7d' ∉ (repairJSON x).toList ∨ (repairJSON x).toList.getLast? = some '\x7d') :
    repairJSON (repairJSON x) = repairJSON x := by
  have hbrackets : closeBrackets (repairJSON x).toList = (repairJSON x).toList := by
    rw [closeBrackets, if_neg]
    omega
  have hbraces : closeBraces (repairJSON x).toList = (repairJSON x).toList := by
    rw [closeBraces, if_neg]
    omega
  calc repairJSON (repairJSON x)
      = String.mk (repairChars (repairJSON x).toList) := rfl
    _ = String.mk (repairJSON x).toList := by
        rw [repairChars, h1, h2, hbrackets, hbraces, truncAfterLastBrace_stable _ h5]
    _ = repairJSON x := by
        cases hx : repairJSON x
        rfl

/-- Witness instantiating `repairJSON_idempotent_of_stable` at a concrete
input whose repair is stable. -/
theorem repairJSON_idempotent_of_stable_witness :
    repairJSON (repairJSON "\x7b\"a\":1\x7d") = repairJSON "\x7b\"a\":1\x7d" :=
  repairJSON_idempotent_of_stable "\x7b\"a\":1\x7d" (by decide) (by decide) (by decide)
    (by decide) (by decide) (Or.inr (by decide))

/-- C10: the commit sweep can never produce work: the listing call
`this.github.listRecentCommits(...)` always throws (the method does not
exist on the GitHub client class), the error is caught, and every
`checkForUpdates` run that completes reports `commitCount = 0`, no
processed commits, and no commit-path Change-Processor batches, while the
run itself still succeeds so the cursor advance that follows it happens. -/
theorem commitSweep_dead :
    listRecentCommitsCall
      = .error "TypeError: this.github.listRecentCommits is not a function"
    ∧ (∀ (env : UpdaterEnv) (st : SyncState) (out : CheckOut),
        checkForUpdates env st = .ok out →
          out.commitSweepOut = zeroSweep ∧ out.result.commitCount = 0
          ∧ out.result.commits = [] ∧ out.commitSweepOut.processorBatches = []) := by
  constructor
  · rfl
  · intro env st out h
    unfold checkForUpdates at h
    match hp : env.closedPRPage with
    | .error e => rw [hp] at h; exact absurd h (by simp)
    | .ok page =>
      rw [hp] at h
      simp only [Except.ok.injEq] at h
      subst h
      exact ⟨rfl, rfl, rfl, rfl⟩

/-- Witness instantiating `commitSweep_dead` at a concrete run. -/
theorem commitSweep_dead_witness :
    checkForUpdates envNoWork emptySyncState = .ok outNoWork
    ∧ (outNoWork.commitSweepOut = zeroSweep ∧ outNoWork.result.commitCount = 0
       ∧ outNoWork.result.commits = [] ∧ outNoWork.commitSweepOut.processorBatches = []) :=
  ⟨rfl, commitSweep_dead.2 envNoWork emptySyncState outNoWork rfl⟩

/-- C8: evaluation at the failing input. With a non-null `lastSync` and one
direct (non-merge) commit available, the sweep as composed in the code
(listing outcome `listRecentCommitsCall`, which is a thrown `TypeError`)
performs no oracle call and hands no batch to the Change Processor — while
the sweep body on the same data, had the listing call existed, would have
filtered out the merge commit and processed the direct one, and would have
skipped everything on a null `lastSync`. -/
theorem commitSweep_failingInput :
    commitSweep listRecentCommitsCall false (.val 1700000000000) (fun _ => sigVerdict)
      = zeroSweep
    ∧ commitSweep (.ok [mergeCommit0, directCommit0]) false (.val 1700000000000)
        (fun _ => sigVerdict)
      = { llmCalls := 1, processorBatches := [[directCommit0]], commitCount := 1,
          processedCommits := ["abc1234"] }
    ∧ commitSweep (.ok [mergeCommit0, directCommit0]) false .null (fun _ => sigVerdict)
      = zeroSweep :=
  ⟨rfl, by decide, rfl⟩

theorem foldl_max_init_le (l : List Nat) (a : Nat) : a ≤ l.foldl max a := by
  induction l generalizing a with
  | nil => exact le_refl a
  | cons b t ih => exact le_trans (le_max_left a b) (ih (max a b))

theorem le_foldl_max (l : List Nat) (a x : Nat) (hx : x ∈ l) : x ≤ l.foldl max a := by
  induction l generalizing a with
  | nil => cases hx
  | cons b t ih =>
    rcases List.mem_cons.mp hx with rfl | hmem
    · exact le_trans (le_max_right a x) (foldl_max_init_le t (max a x))
    · exact ih (max a b) hmem

theorem map_filter_comm {α : Type} (f : α → Nat) (q : Nat → Bool) (l : List α) :
    (l.filter (fun a => q (f a))).map f = (l.map f).filter q := by
  induction l with
  | nil => rfl
  | cons a t ih =>
    simp only [List.filter_cons, List.map_cons]
    cases hq : q (f a) <;> simp [hq, ih]

/-- What a successful `checkForUpdates` run guarantees: successes are the
attempted PRs that processed without throwing; every attempted PR number is
above the cursor; `highestPR` is the maximum success (or the old cursor when
none); and the attempted list is the provider page, merged-filtered and
cursor-filtered, in page order. -/
theorem checkForUpdates_ok_spec (env : UpdaterEnv) (st : SyncState) (out : CheckOut)
    (h : checkForUpdates env st = .ok out) :
    out.result.prs = out.attemptedPRs.filter env.prProcessOk
    ∧ (∀ n ∈ out.attemptedPRs, lastPRFor env st < n)
    ∧ out.result.highestPR
        = (if out.result.prs.isEmpty then lastPRFor env st else out.result.prs.foldl max 0)
    ∧ (∀ page : List ProviderPR, env.closedPRPage = .ok page →
        out.attemptedPRs
          = ((page.filter (fun pr => pr.mergedAt.isSome)).map (fun pr => pr.number)).filter
              (fun n => decide (lastPRFor env st < n))) := by
  unfold checkForUpdates at h
  match hp : env.closedPRPage with
  | .error e => rw [hp] at h; exact absurd h (by simp)
  | .ok page =>
    rw [hp] at h
    simp only [Except.ok.injEq] at h
    subst h
    refine ⟨?_, ?_, rfl, ?_⟩
    · exact map_filter_comm (fun pr : PRSummary => pr.number) env.prProcessOk _
    · intro n hn
      rcases List.mem_map.mp hn with ⟨pr, hpr, rfl⟩
      have := List.of_mem_filter hpr
      simpa using this
    · intro page' hpage'
      injection hpage' with hpp
      subst hpp
      show (((listPullRequests page none).filter _).map _) = _
      rw [map_filter_comm (fun pr : PRSummary => pr.number)
        (fun n => decide (lastPRFor env st < n))]
      congr 1
      unfold listPullRequests
      simp [List.map_map]

/-- What a written cursor means for the sweep-and-store tail. -/
theorem proceedSync_cursor (repoFullName : String) (now : Nat)
    (stored : Option StoredRepo) (env : CycleEnv) (probeRan : Bool)
    (p : JSOpt Nat) (t : Nat)
    (h : (proceedSync repoFullName now stored env probeRan).storedCursor = some (p, t)) :
    ∃ r out, stored = some r
      ∧ checkForUpdates env.updater (syncStateOf r) = .ok out
      ∧ p = jsOrElse out.result.highestPR r.lastProcessedPR
      ∧ t = now
      ∧ (proceedSync repoFullName now stored env probeRan).attemptedPRs
          = out.attemptedPRs := by
  cases stored with
  | none =>
    unfold proceedSync at h
    dsimp only at h
    cases hc : checkForUpdates env.updater emptySyncState with
    | error e => rw [hc] at h; simp [idleOut] at h
    | ok out => rw [hc] at h; simp at h
  | some r =>
    unfold proceedSync at h ⊢
    dsimp only at h ⊢
    cases hc : checkForUpdates env.updater (syncStateOf r) with
    | error e => rw [hc] at h; simp [idleOut] at h
    | ok out =>
      rw [hc] at h
      dsimp only at h ⊢
      simp only [Option.some.injEq, Prod.mk.injEq] at h
      exact ⟨r, out, rfl, hc, h.1.symm, h.2.symm, rfl⟩

/-- What a written cursor means at the cycle level: the store record was
present, `checkForUpdates` succeeded, and the written pair is
`(result.highestPR || syncState.lastProcessedPR, now)`. -/
theorem storedCursor_spec (repoFullName : String) (config : RepoConfig) (now : Nat)
    (lastSyncTime : Option Nat) (stored : Option StoredRepo) (env : CycleEnv)
    (p : JSOpt Nat) (t : Nat)
    (h : (runSyncCycleStep repoFullName config now lastSyncTime stored env).storedCursor
        = some (p, t)) :
    ∃ r out, stored = some r
      ∧ checkForUpdates env.updater (syncStateOf r) = .ok out
      ∧ p = jsOrElse out.result.highestPR r.lastProcessedPR
      ∧ t = now
      ∧ (runSyncCycleStep repoFullName config now lastSyncTime stored env).attemptedPRs
          = out.attemptedPRs := by
  unfold runSyncCycleStep at h ⊢
  by_cases hskip : shouldSkip now lastSyncTime
  · rw [if_pos hskip] at h
    exact absurd h (by simp [idleOut])
  · rw [if_neg hskip] at h ⊢
    by_cases hurl : jsStrTruthy config.craftMcpUrl
    · rw [if_pos hurl] at h ⊢
      cases hd : env.documentsList with
      | error e =>
        rw [hd] at h
        exact proceedSync_cursor repoFullName now stored env true p t h
      | ok docs =>
        rw [hd] at h
        dsimp only at h ⊢
        cases hde : documentExists docs repoFullName with
        | some found =>
          rw [hde] at h
          exact proceedSync_cursor repoFullName now stored env true p t h
        | none =>
          rw [hde] at h
          simp [idleOut] at h
    · rw [if_neg hurl] at h ⊢
      exact proceedSync_cursor repoFullName now stored env false p t h

/-- C7 (counterexample): the merged-PR list keeps the provider's
update-time-descending order and the sweep processes PRs in that order, so
with PR 5 updated after PR 3 the sweep runs 5 before 3 — not in strictly
ascending order of PR number. -/
theorem prSweep_not_ascending :
    (listPullRequests pageDesc none).map (fun pr => pr.number) = [5, 3]
    ∧ checkForUpdates descUpdEnv stBase = .ok outDesc
    ∧ outDesc.attemptedPRs = [5, 3]
    ∧ outDesc.result.prs = [5, 3]
    ∧ ¬ List.Sorted (· < ·) outDesc.attemptedPRs :=
  ⟨rfl, rfl, rfl, rfl,
   fun h => absurd ((List.sorted_cons.mp h).1 3 (by simp)) (by omega)⟩

/-- C7 (amended): the PR sweep attempts the newly found merged PRs in the
order the provider delivered them (the closed-PR page, filtered to merged
PRs, filtered to numbers above the cursor), and the processed list is that
order filtered by per-PR success; no sort by PR number happens anywhere. -/
theorem prSweep_providerOrder (env : UpdaterEnv) (st : SyncState)
    (page : List ProviderPR) (out : CheckOut)
    (hpage : env.closedPRPage = .ok page) (h : checkForUpdates env st = .ok out) :
    out.attemptedPRs
      = ((page.filter (fun pr => pr.mergedAt.isSome)).map (fun pr => pr.number)).filter
          (fun n => decide (lastPRFor env st < n))
    ∧ out.result.prs = out.attemptedPRs.filter env.prProcessOk :=
  ⟨(checkForUpdates_ok_spec env st out h).2.2.2 page hpage,
   (checkForUpdates_ok_spec env st out h).1⟩

/-- Witness instantiating `prSweep_providerOrder` on the concrete page. -/
theorem prSweep_providerOrder_witness :
    outDesc.attemptedPRs
      = ((pageDesc.filter (fun pr => pr.mergedAt.isSome)).map (fun pr => pr.number)).filter
          (fun n => decide (lastPRFor descUpdEnv stBase < n))
    ∧ outDesc.result.prs = outDesc.attemptedPRs.filter descUpdEnv.prProcessOk :=
  prSweep_providerOrder descUpdEnv stBase pageDesc outDesc rfl rfl

/-- C3 (counterexample): with cursor 41, merged PRs 42, 43, 44 and PR 43
failing, the cycle still stores `lastProcessedPR = 44` — the cursor advances
past the failed PR's number because a later PR succeeded. -/
theorem cursorPastFailedPR :
    s3run.attemptedPRs = [42, 43, 44]
    ∧ updEnvS3.prProcessOk 43 = false
    ∧ s3run.outcome = .synced
        ({ processed := 2, prs := [42, 44], commits := [], prCount := 2,
           commitCount := 0, highestPR := 44 } : UpdateResult)
    ∧ s3run.storedCursor = some (.val 44, 10000000)
    ∧ 43 < 44 :=
  ⟨rfl, rfl, rfl, rfl, by omega⟩

/-- C3 (amended): when processing of a PR fails the sweep continues with the
remaining PRs (successes are exactly the attempted PRs whose processing
succeeded), `highestPR` is the maximum successfully processed number (the
old cursor when none succeeded), and the cursor written at the end of the
cycle is `highestPR || old` — so it can advance past a failed PR whenever a
later-numbered PR succeeded. -/
theorem prFailure_cursorAdvance :
    (∀ (env : UpdaterEnv) (st : SyncState) (out : CheckOut),
        checkForUpdates env st = .ok out →
          out.result.prs = out.attemptedPRs.filter env.prProcessOk
          ∧ out.result.highestPR
              = (if out.result.prs.isEmpty then lastPRFor env st
                 else out.result.prs.foldl max 0))
    ∧ (∀ (repoFullName : String) (config : RepoConfig) (now : Nat)
        (lastSyncTime : Option Nat) (stored : Option StoredRepo) (env : CycleEnv)
        (p : JSOpt Nat) (t : Nat),
        (runSyncCycleStep repoFullName config now lastSyncTime stored env).storedCursor
            = some (p, t) →
        ∃ r out, stored = some r
          ∧ checkForUpdates env.updater (syncStateOf r) = .ok out
          ∧ p = jsOrElse out.result.highestPR r.lastProcessedPR) := by
  constructor
  · intro env st out h
    exact ⟨(checkForUpdates_ok_spec env st out h).1,
      (checkForUpdates_ok_spec env st out h).2.2.1⟩
  · intro repoFullName config now lastSyncTime stored env p t h
    obtain ⟨r, out, h1, h2, h3, _, _⟩ :=
      storedCursor_spec repoFullName config now lastSyncTime stored env p t h
    exact ⟨r, out, h1, h2, h3⟩

/-- Witness instantiating `prFailure_cursorAdvance` on the failed-PR
scenario. -/
theorem prFailure_cursorAdvance_witness :
    (outDesc.result.prs = outDesc.attemptedPRs.filter descUpdEnv.prProcessOk
      ∧ outDesc.result.highestPR
          = (if outDesc.result.prs.isEmpty then lastPRFor descUpdEnv stBase
             else outDesc.result.prs.foldl max 0))
    ∧ ∃ r out, (some storedS3 : Option StoredRepo) = some r
        ∧ checkForUpdates cycleEnvS3.updater (syncStateOf r) = .ok out
        ∧ (JSOpt.val 44 : JSOpt Nat) = jsOrElse out.result.highestPR r.lastProcessedPR :=
  ⟨prFailure_cursorAdvance.1 descUpdEnv stBase outDesc rfl,
   prFailure_cursorAdvance.2 "octo/hello" cfgNoCraft 10000000 none (some storedS3)
     cycleEnvS3 (.val 44) 10000000 rfl⟩

/-- C2 (amended): across every completed cycle the stored `lastProcessedPR`
never decreases (an absent value is below everything); and provided the
stored record defines `lastProcessedPR` or `lastSyncedAt` (so the legacy
workspace-state fallback is not consulted), a cycle whose PR sweep found no
new PRs leaves `lastProcessedPR` exactly unchanged while `lastSyncedAt` is
set to the cycle time. -/
theorem lastProcessedPR_monotone :
    (∀ (repoFullName : String) (config : RepoConfig) (now : Nat)
        (lastSyncTime : Option Nat) (r : StoredRepo) (env : CycleEnv)
        (p : JSOpt Nat) (t : Nat),
        (runSyncCycleStep repoFullName config now lastSyncTime (some r) env).storedCursor
            = some (p, t) →
        jsOptLe r.lastProcessedPR p)
    ∧ (∀ (repoFullName : String) (config : RepoConfig) (now : Nat)
        (lastSyncTime : Option Nat) (r : StoredRepo) (env : CycleEnv)
        (p : JSOpt Nat) (t : Nat),
        ¬(r.lastProcessedPR = .undefined ∧ r.lastSyncedAt = .undefined) →
        (runSyncCycleStep repoFullName config now lastSyncTime (some r) env).storedCursor
            = some (p, t) →
        (runSyncCycleStep repoFullName config now lastSyncTime (some r) env).attemptedPRs
            = [] →
        p = r.lastProcessedPR ∧ t = now) := by
  constructor
  · intro repoFullName config now lastSyncTime r env p t h k hk
    obtain ⟨r', out, hr', hok, hp, _, _⟩ :=
      storedCursor_spec repoFullName config now lastSyncTime (some r) env p t h
    obtain rfl : r = r' := by injection hr'
    obtain ⟨hprs, hmem, hmax, _⟩ := checkForUpdates_ok_spec env.updater (syncStateOf r) out hok
    have hlast : lastPRFor env.updater (syncStateOf r) = k := by
      unfold lastPRFor
      rw [if_neg]
      · show jsOrZero (syncStateOf r).lastProcessedPR = k
        show jsOrZero r.lastProcessedPR = k
        rw [hk]; rfl
      · intro hcontra
        have : (syncStateOf r).lastProcessedPR = .undefined := hcontra.1
        rw [show (syncStateOf r).lastProcessedPR = r.lastProcessedPR from rfl, hk] at this
        exact JSOpt.noConfusion this
    by_cases hempty : out.result.prs.isEmpty
    · have : out.result.highestPR = k := by rw [hmax, if_pos hempty, hlast]
      rw [hp, this]
      unfold jsOrElse
      by_cases hk0 : k = 0
      · subst hk0; exact ⟨0, by simp [hk], le_refl 0⟩
      · exact ⟨k, by simp [hk0], le_refl k⟩
    · obtain ⟨n, hn⟩ := List.exists_mem_of_ne_nil out.result.prs
        (fun hnil => hempty (by simp [hnil]))
      have hnAtt : n ∈ out.attemptedPRs := by
        rw [hprs] at hn
        exact List.mem_of_mem_filter hn
      have hkn : k < n := hlast ▸ hmem n hnAtt
      have hle : n ≤ out.result.prs.foldl max 0 := le_foldl_max _ 0 n hn
      have hhi : out.result.highestPR = out.result.prs.foldl max 0 := by
        rw [hmax, if_neg hempty]
      have hpos : 0 < out.result.highestPR := by omega
      refine ⟨out.result.highestPR, ?_, by omega⟩
      rw [hp]
      unfold jsOrElse
      rw [if_neg (by omega)]
  · intro repoFullName config now lastSyncTime r env p t hdef h hatt
    obtain ⟨r', out, hr', hok, hp, ht, hattEq⟩ :=
      storedCursor_spec repoFullName config now lastSyncTime (some r) env p t h
    obtain rfl : r = r' := by injection hr'
    obtain ⟨hprs, _, hmax, _⟩ := checkForUpdates_ok_spec env.updater (syncStateOf r) out hok
    have hattO : out.attemptedPRs = [] := by rw [← hattEq]; exact hatt
    have hprsNil : out.result.prs = [] := by rw [hprs, hattO]; rfl
    have hlast : lastPRFor env.updater (syncStateOf r) = jsOrZero r.lastProcessedPR := by
      unfold lastPRFor
      rw [if_neg]
      · rfl
      · exact fun hcontra => hdef ⟨hcontra.1, hcontra.2⟩
    have hhi : out.result.highestPR = jsOrZero r.lastProcessedPR := by
      rw [hmax, if_pos (by simp [hprsNil]), hlast]
    refine ⟨?_, ht.symm ▸ rfl⟩
    rw [hp, hhi]
    cases hcase : r.lastProcessedPR with
    | undefined => simp [jsOrZero, jsOrElse]
    | null => simp [jsOrZero, jsOrElse]
    | val k =>
      unfold jsOrZero jsOrElse
      by_cases hk0 : k = 0
      · subst hk0; simp
      · simp [hk0]

/-- Witness instantiating `lastProcessedPR_monotone` on the failed-PR
scenario (cursor 41 → 44) and on an empty sweep. -/
theorem lastProcessedPR_monotone_witness :
    jsOptLe storedS3.lastProcessedPR (.val 44)
    ∧ ((JSOpt.val 41 : JSOpt Nat) = storedS3.lastProcessedPR ∧ 10000000 = 10000000) := by
  constructor
  · exact lastProcessedPR_monotone.1 "octo/hello" cfgNoCraft 10000000 none storedS3
      cycleEnvS3 (.val 44) 10000000 rfl
  · exact lastProcessedPR_monotone.2 "octo/hello" cfgNoCraft 10000000 none storedS3
      { documentsList := .ok [], updater := descUpdEnv } (.val 41) 10000000
      (by intro hc; exact JSOpt.noConfusion hc.1) rfl rfl

/-- C2 (counterexample): when both stored cursor fields are undefined the
sweep falls back to the legacy workspace state document; with that legacy
cursor at 10 and an empty PR sweep, the cycle writes `lastProcessedPR = 10`
even though it found no new PRs — the claim's "unchanged on an empty sweep"
fails on this path. -/
theorem emptySweep_cursorChanged :
    legacyRun.attemptedPRs = []
    ∧ storedLegacy.lastProcessedPR = .undefined
    ∧ legacyRun.storedCursor = some (.val 10, 10000000)
    ∧ (JSOpt.val 10 : JSOpt Nat) ≠ storedLegacy.lastProcessedPR :=
  ⟨rfl, rfl, rfl, fun hc => JSOpt.noConfusion hc⟩

/-- C1: when the cycle reaches a connection (not skipped by the
min-interval), the connection has a workspace endpoint, and the probe
answers that the canonical document does not exist, the cycle's entire
output is the deletion: the connection is removed from the config store and
the repository store, no version-control-provider call is made, no
workspace mutation happens, and no cursor is written. -/
theorem remoteAbsent_deletesOnly (repoFullName : String) (config : RepoConfig)
    (now : Nat) (lastSyncTime : Option Nat) (stored : Option StoredRepo)
    (env : CycleEnv) (docs : List WsDoc)
    (hskip : shouldSkip now lastSyncTime = false)
    (hurl : jsStrTruthy config.craftMcpUrl = true)
    (hdocs : env.documentsList = .ok docs)
    (habsent : documentExists docs repoFullName = none) :
    runSyncCycleStep repoFullName config now lastSyncTime stored env
      = { idleOut .deleted true with configDeleted := true, storeDeleted := true } := by
  unfold runSyncCycleStep
  rw [if_neg (by simp [hskip]), if_pos hurl, hdocs]
  dsimp only
  rw [habsent]

/-- Witness instantiating `remoteAbsent_deletesOnly` at a concrete empty
workspace. -/
theorem remoteAbsent_deletesOnly_witness :
    runSyncCycleStep "octo/hello" cfgWithCraft 0 none none cycleEnvAbsent
      = { idleOut .deleted true with configDeleted := true, storeDeleted := true } :=
  remoteAbsent_deletesOnly "octo/hello" cfgWithCraft 0 none none cycleEnvAbsent []
    rfl rfl rfl rfl

theorem itemsAddedTo_append (l1 l2 : List ToolCall) (c : String) :
    itemsAddedTo (l1 ++ l2) c = itemsAddedTo l1 c + itemsAddedTo l2 c := by
  simp [itemsAddedTo]

/-- C6: in the PR path a release-notes item is inserted iff
`releaseNoteWorthy` (impact major, or breaking changes, or a feature with
public-API changes) holds, and exactly one `doc_history` item is always
inserted; in particular a patch-level, non-breaking, non-feature PR
produces exactly one `doc_history` item and zero `release_notes` items.
Hypotheses: the four collection ids are the materialised ones — the
release-notes and doc-history ids are present and the other ids (when
present) differ from them. -/
theorem releaseNote_iff_worthy (prNumber : Nat) (documentId : JSOpt String)
    (cids : CollIds) (a : ChangeAnalysis) (dh rn : String)
    (hdh : cids.docHistory = .val dh) (hdhne : dh ≠ "")
    (hrn : cids.releaseNotes = .val rn) (hrnne : rn ≠ "")
    (hdist : rn ≠ dh)
    (hadr : ∀ s, cids.adrs = .val s → s ≠ rn ∧ s ≠ dh)
    (htask : ∀ s, cids.engineeringTasks = .val s → s ≠ rn ∧ s ≠ dh) :
    (isMajorChange a = true
      ↔ (a.impactLevel = "major" ∨ a.breakingChanges = true
         ∨ (a.changeType = "feature" ∧ a.publicAPIChanges = true)))
    ∧ itemsAddedTo (processUpdateWithCollections prNumber documentId cids a) rn
        = (if isMajorChange a then 1 else 0)
    ∧ itemsAddedTo (processUpdateWithCollections prNumber documentId cids a) dh = 1
    ∧ (a.impactLevel = "patch" → a.breakingChanges = false → a.changeType ≠ "feature" →
        itemsAddedTo (processUpdateWithCollections prNumber documentId cids a) rn = 0
        ∧ itemsAddedTo (processUpdateWithCollections prNumber documentId cids a) dh
            = 1) := by
  obtain ⟨rnF, adrF, taskF, dhF⟩ := cids
  simp only at hdh hrn hadr htask
  subst hdh
  subst hrn
  have hMiff : isMajorChange a = true
      ↔ (a.impactLevel = "major" ∨ a.breakingChanges = true
         ∨ (a.changeType = "feature" ∧ a.publicAPIChanges = true)) := by
    simp [isMajorChange, or_assoc]
  have e3 : itemsAddedTo (if jsStrTruthy adrF && a.requiresADR then
      [ToolCall.collectionItemsAdd (jsStrGet adrF) 1] else []) rn = 0 := by
    rcases adrF with _ | _ | s1
    · simp [jsStrTruthy, itemsAddedTo]
    · simp [jsStrTruthy, itemsAddedTo]
    · have hne := (hadr s1 rfl).1
      by_cases hemp : s1 = ""
      · simp [jsStrTruthy, hemp, itemsAddedTo]
      · cases hA : a.requiresADR <;>
          simp [jsStrTruthy, jsStrGet, itemsAddedTo, hA, hemp, hne]
  have e3d : itemsAddedTo (if jsStrTruthy adrF && a.requiresADR then
      [ToolCall.collectionItemsAdd (jsStrGet adrF) 1] else []) dh = 0 := by
    rcases adrF with _ | _ | s1
    · simp [jsStrTruthy, itemsAddedTo]
    · simp [jsStrTruthy, itemsAddedTo]
    · have hne := (hadr s1 rfl).2
      by_cases hemp : s1 = ""
      · simp [jsStrTruthy, hemp, itemsAddedTo]
      · cases hA : a.requiresADR <;>
          simp [jsStrTruthy, jsStrGet, itemsAddedTo, hA, hemp, hne]
  have e4 : itemsAddedTo (if jsStrTruthy taskF && decide (0 < a.followUpTasks.length) then
      [ToolCall.collectionItemsAdd (jsStrGet taskF) a.followUpTasks.length] else []) rn
        = 0 := by
    rcases taskF with _ | _ | s2
    · simp [jsStrTruthy, itemsAddedTo]
    · simp [jsStrTruthy, itemsAddedTo]
    · have hne := (htask s2 rfl).1
      by_cases hemp : s2 = ""
      · simp [jsStrTruthy, hemp, itemsAddedTo]
      · by_cases hT : 0 < a.followUpTasks.length <;>
          simp [jsStrTruthy, jsStrGet, itemsAddedTo, hT, hemp, hne]
  have e4d : itemsAddedTo (if jsStrTruthy taskF && decide (0 < a.followUpTasks.length) then
      [ToolCall.collectionItemsAdd (jsStrGet taskF) a.followUpTasks.length] else []) dh
        = 0 := by
    rcases taskF with _ | _ | s2
    · simp [jsStrTruthy, itemsAddedTo]
    · simp [jsStrTruthy, itemsAddedTo]
    · have hne := (htask s2 rfl).2
      by_cases hemp : s2 = ""
      · simp [jsStrTruthy, hemp, itemsAddedTo]
      · by_cases hT : 0 < a.followUpTasks.length <;>
          simp [jsStrTruthy, jsStrGet, itemsAddedTo, hT, hemp, hne]
  have e5 : ∀ c : String,
      itemsAddedTo (if jsStrTruthy documentId then
        [ToolCall.mainDocumentSections prNumber] else []) c = 0 := by
    intro c
    cases h : jsStrTruthy documentId <;> simp [itemsAddedTo, h]
  have hrnCount : itemsAddedTo
      (processUpdateWithCollections prNumber documentId
        ⟨JSOpt.val rn, adrF, taskF, JSOpt.val dh⟩ a) rn
        = (if isMajorChange a then 1 else 0) := by
    simp only [processUpdateWithCollections, itemsAddedTo_append]
    rw [e3, e4, e5]
    have s1 : itemsAddedTo (if jsStrTruthy (JSOpt.val dh) then
        [ToolCall.collectionItemsAdd (jsStrGet (JSOpt.val dh)) 1] else []) rn = 0 := by
      simp [jsStrTruthy, jsStrGet, itemsAddedTo, hdhne, Ne.symm hdist]
    have s2 : itemsAddedTo (if jsStrTruthy (JSOpt.val rn) && isMajorChange a then
        [ToolCall.collectionItemsAdd (jsStrGet (JSOpt.val rn)) 1] else []) rn
          = (if isMajorChange a then 1 else 0) := by
      cases hM : isMajorChange a <;>
        simp [jsStrTruthy, jsStrGet, itemsAddedTo, hrnne, hM]
    rw [s1, s2]
    simp
  have hdhCount : itemsAddedTo
      (processUpdateWithCollections prNumber documentId
        ⟨JSOpt.val rn, adrF, taskF, JSOpt.val dh⟩ a) dh = 1 := by
    simp only [processUpdateWithCollections, itemsAddedTo_append]
    rw [e3d, e4d, e5]
    have s1 : itemsAddedTo (if jsStrTruthy (JSOpt.val dh) then
        [ToolCall.collectionItemsAdd (jsStrGet (JSOpt.val dh)) 1] else []) dh = 1 := by
      simp [jsStrTruthy, jsStrGet, itemsAddedTo, hdhne]
    have s2 : itemsAddedTo (if jsStrTruthy (JSOpt.val rn) && isMajorChange a then
        [ToolCall.collectionItemsAdd (jsStrGet (JSOpt.val rn)) 1] else []) dh = 0 := by
      cases hM : isMajorChange a <;>
        simp [jsStrTruthy, jsStrGet, itemsAddedTo, hrnne, hM, hdist]
    rw [s1, s2]
  refine ⟨hMiff, hrnCount, hdhCount, ?_⟩
  intro hpatch hbreak hfeat
  have hM : isMajorChange a = false := by
    rw [isMajorChange, hpatch, hbreak]
    simp
    intro hft
    exact absurd hft hfeat
  refine ⟨?_, hdhCount⟩
  rw [hrnCount, hM]
  rfl

/-- Witness instantiating `releaseNote_iff_worthy` on a patch-level,
non-breaking bugfix analysis with the four materialised collection ids. -/
theorem releaseNote_iff_worthy_witness :
    (isMajorChange patchAnalysis = true
      ↔ (patchAnalysis.impactLevel = "major" ∨ patchAnalysis.breakingChanges = true
         ∨ (patchAnalysis.changeType = "feature"
            ∧ patchAnalysis.publicAPIChanges = true)))
    ∧ itemsAddedTo (processUpdateWithCollections 7 (.val "doc-1") matIds patchAnalysis)
        "col-rn" = (if isMajorChange patchAnalysis then 1 else 0)
    ∧ itemsAddedTo (processUpdateWithCollections 7 (.val "doc-1") matIds patchAnalysis)
        "col-dh" = 1
    ∧ (patchAnalysis.impactLevel = "patch" → patchAnalysis.breakingChanges = false →
        patchAnalysis.changeType ≠ "feature" →
        itemsAddedTo (processUpdateWithCollections 7 (.val "doc-1") matIds patchAnalysis)
          "col-rn" = 0
        ∧ itemsAddedTo (processUpdateWithCollections 7 (.val "doc-1") matIds patchAnalysis)
          "col-dh" = 1) :=
  releaseNote_iff_worthy 7 (.val "doc-1") matIds patchAnalysis "col-dh" "col-rn"
    rfl (by decide) rfl (by decide) (by decide)
    (fun s hs => by
      have hs2 : JSOpt.val "col-adr" = JSOpt.val s := hs
      injection hs2 with hs3
      subst hs3
      exact ⟨by decide, by decide⟩)
    (fun s hs => by
      have hs2 : JSOpt.val "col-task" = JSOpt.val s := hs
      injection hs2 with hs3
      subst hs3
      exact ⟨by decide, by decide⟩)

/-- C4: re-invoking `/sync/analyze` for a repo that is already connected
with a non-null `documentId`, or whose canonical-title document already
exists in the workspace, returns `alreadyExists` with the existing
document's id and performs zero document- or collection-creation calls. -/
theorem analyze_idempotent :
    (∀ (owner repo : String) (r : AnalyzeStored)
        (workspaceDocs : Except String (List WsDoc)) (mc : List String) (d : String),
        r.documentId = .val d → d ≠ "" →
        postAnalyze true true owner repo (some r) workspaceDocs mc
          = (.alreadyExists d (jsStrGet r.documentTitle), []))
    ∧ (∀ (owner repo : String) (storedRepo : Option AnalyzeStored)
        (docs : List WsDoc) (mc : List String) (found : String × String),
        (storedRepo = none
          ∨ ∃ r, storedRepo = some r ∧ jsStrTruthy r.documentId = false) →
        documentExists docs (owner ++ "/" ++ repo) = some found →
        postAnalyze true true owner repo storedRepo (.ok docs) mc
          = (.alreadyExists found.1 found.2, [])) := by
  constructor
  · intro owner repo r workspaceDocs mc d hd hdne
    have ht : jsStrTruthy r.documentId = true := by
      rw [hd]; simpa [jsStrTruthy] using hdne
    unfold postAnalyze
    rw [if_neg (by simp), if_neg (by simp)]
    dsimp only
    rw [if_pos ht, hd]
    rfl
  · intro owner repo storedRepo docs mc found hgate hfound
    unfold postAnalyze
    rw [if_neg (by simp), if_neg (by simp)]
    rcases hgate with rfl | ⟨r, rfl, hfalse⟩
    · unfold analyzeAfterDbGate
      dsimp only
      rw [hfound]
    · dsimp only
      rw [if_neg (by simp [hfalse])]
      unfold analyzeAfterDbGate
      dsimp only
      rw [hfound]

/-- Witness instantiating `analyze_idempotent`: the store gate on a record
with document id `doc-9`, and the workspace gate on a workspace that holds
`octo-hello-docs`. -/
theorem analyze_idempotent_witness :
    postAnalyze true true "octo" "hello"
        (some { documentId := .val "doc-9", documentTitle := .val "octo-hello-docs" })
        (.ok []) ["documents_create"]
      = (.alreadyExists "doc-9"
          (jsStrGet (JSOpt.val "octo-hello-docs" : JSOpt String)), [])
    ∧ postAnalyze true true "octo" "hello" none
        (.ok [{ id := "doc-3", title := .val "Octo-Hello-Docs", name := .undefined }])
        ["documents_create"]
      = (.alreadyExists ("doc-3", "octo-hello-docs").1 ("doc-3", "octo-hello-docs").2, []) :=
  ⟨analyze_idempotent.1 "octo" "hello"
      { documentId := .val "doc-9", documentTitle := .val "octo-hello-docs" }
      (.ok []) ["documents_create"] "doc-9" rfl (by decide),
   analyze_idempotent.2 "octo" "hello" none
      [{ id := "doc-3", title := .val "Octo-Hello-Docs", name := .undefined }]
      ["documents_create"] ("doc-3", "octo-hello-docs") (Or.inl rfl) (by decide)⟩

end GitCraft
